import Mathlib

/-!
Shallow embedding of the LearnMate backend and Telegram bot
(repository `Jordy-20035/learnmate`), together with theorems checking the
natural-language specification against the code.

The embedding follows the Python sources:
  * `backend/models/youtube.py`   — `YouTubeTranscriber`
  * `backend/models/translation.py` — `TranslationModel`
  * `backend/models/code_analysis.py` — `CodeAnalysisModel`
  * `backend/main.py`             — FastAPI endpoints
  * `backend/database.py`         — `UserRequest` table (never imported elsewhere)
  * `telegram_bot/bot.py`         — `BotHandler`
External effects (yt-dlp, the OpenRouter API, Whisper, the network, the
filesystem) are modelled as oracles supplied in environment records, and the
files created/removed by an operation are tracked in an explicit trace.
-/

namespace LearnMate

/-! ## Python string primitives -/

/-- Python whitespace for `str.strip()` (the ASCII part). -/
def pyIsSpace (c : Char) : Bool :=
  c = ' ' || c = '\t' || c = '\n' || c = '\r' || c = Char.ofNat 11 || c = Char.ofNat 12

/-- `str.strip()` on a list of characters. -/
def pyStripL (l : List Char) : List Char :=
  ((l.dropWhile pyIsSpace).reverse.dropWhile pyIsSpace).reverse

/-- Python `s.strip()`. -/
def pyStrip (s : String) : String := ⟨pyStripL s.data⟩

/-- `url.split("&")[0]`: the part of the string before the first `&`. -/
def truncAtAmp (url : String) : String := ⟨url.data.takeWhile (fun c => c ≠ '&')⟩

/-! ## `YouTubeTranscriber.extract_video_id` (youtube.py lines 21-34)

The three regular expressions share the shape
`(?:https?:\/\/)?(?:www\.)?LITERAL([a-zA-Z0-9_-]+)` and are applied with
`re.search`.  At a given start position at most one combination of the two
optional groups can match (the alternatives begin with distinct characters),
so `re.search` is: scan start positions left to right; at each position try
the combinations of the optional groups from longest to shortest; a match
additionally needs at least one id character after the literal, and the
captured group is the maximal id-character run. -/

/-- A character of the capture class `[a-zA-Z0-9_-]` (also `[\w-]` for the
bot's URL regex, restricted to ASCII). -/
def idChar (c : Char) : Bool := c.isAlphanum || c = '_' || c = '-'

/-- The possible expansions of `(?:https?:\/\/)?(?:www\.)?`, longest first. -/
def schemeCombos : List (List Char) :=
  ["https://www.".data, "https://".data, "http://www.".data, "http://".data,
   "www.".data, "".data]

/-- Try the pattern with literal core `core` at the head of `cs`: some
optional-group expansion followed by `core` followed by at least one id
character; the capture is the maximal id-character run. -/
def matchAt (core : List Char) (cs : List Char) : Option (List Char) :=
  schemeCombos.findSome? fun p =>
    if (p ++ core).isPrefixOf cs then
      let run := (cs.drop (p.length + core.length)).takeWhile idChar
      if run.isEmpty then none else some run
    else none

/-- `re.search` for the pattern with literal core `core`: the capture at the
leftmost matching position. -/
def searchCapture (core : List Char) : List Char → Option (List Char)
  | [] => none
  | c :: cs => matchAt core (c :: cs) <|> searchCapture core cs

/-- Literal core of the first pattern of `extract_video_id`. -/
def coreBe : List Char := "youtu.be/".data

/-- Literal core of the second pattern of `extract_video_id`. -/
def coreWatch : List Char := "youtube.com/watch?v=".data

/-- Literal core of the third pattern of `extract_video_id`. -/
def coreEmbed : List Char := "youtube.com/embed/".data

/-- `YouTubeTranscriber.extract_video_id`: truncate at the first `&`, try the
three patterns in order, raise `ValueError` (modelled as `.error`) if none
matches. -/
def extract_video_id (url : String) : Except String String :=
  let u := truncAtAmp url
  match searchCapture coreBe u.data with
  | some g => .ok ⟨g⟩
  | none =>
    match searchCapture coreWatch u.data with
    | some g => .ok ⟨g⟩
    | none =>
      match searchCapture coreEmbed u.data with
      | some g => .ok ⟨g⟩
      | none => .error ("Invalid YouTube URL: " ++ u)

/-- Declarative statement that the pattern with literal core `core` matches
somewhere in `cs`: some position is followed by an optional-group expansion,
the core, and at least one id character. -/
def patternMatches (core : List Char) (cs : List Char) : Prop :=
  ∃ pre p c rest, p ∈ schemeCombos ∧ cs = pre ++ p ++ core ++ c :: rest ∧ idChar c

/-! ## `CodeAnalysisModel.explain_code` (code_analysis.py lines 88-118) -/

/-- The marker appended by `explain_code` when it truncates the code. -/
def truncationMarker : String := "\n# ... (code truncated for analysis)"

/-- `clean_code` as computed by `explain_code`: strip, then truncate to the
first 2000 characters with a marker when longer than 2000. -/
def cleanCode (code : String) : String :=
  let c := pyStrip code
  if c.length > 2000 then ⟨c.data.take 2000⟩ ++ truncationMarker else c

/-- The `prompts` dict of `explain_code`, looked up at `analysis_type` with
default `prompts["explain"]`. -/
def promptFor (analysis_type : String) (code : String) : String :=
  let clean := cleanCode code
  if analysis_type = "explain" then
    "Explain the following Python code:\n\n" ++ clean
  else if analysis_type = "implement" then
    "Write a step-by-step implementation guide for this code:\n\n" ++ clean
  else if analysis_type = "review" then
    "Review the following Python code. List issues, improvements, and best practices:\n\n" ++ clean
  else
    "Explain the following Python code:\n\n" ++ clean

/-- Outcome of one call to the hosted chat-completions API: the returned
message content, or the exception it raised. -/
inductive ApiOutcome where
  | ok (content : String)
  | exn (msg : String)
deriving DecidableEq

/-- `CodeAnalysisModel.explain_code`: build the prompt, call the API on it
(`api` maps the sent prompt to the call's outcome), strip the answer.  On an
exception the handler returns an error string instead of raising. -/
def explain_code (api : String → ApiOutcome) (code analysis_type : String) :
    String :=
  match api (promptFor analysis_type code) with
  | .ok s =>
    let t := pyStrip s
    if t = "" then "⚠️ No explanation generated." else t
  | .exn m => "⚠️ Error during code analysis: " ++ m

/-! ## `TranslationModel.translate_text` (translation.py lines 19-46) -/

/-- `TranslationModel.translate_text`: empty input short-circuits to `""`;
an API exception is caught and turned into an error string. -/
def translate_text (api : ApiOutcome) (text : String) : String :=
  if pyStrip text = "" then ""
  else
    match api with
    | .ok s =>
      let t := pyStrip s
      if t = "" then "⚠️ Translation service unavailable" else t
    | .exn m => "⚠️ Translation service unavailable: " ++ m

/-! ## `YouTubeTranscriber._download_and_parse_captions` (youtube.py 85-143)

The parsing stage, given the downloaded caption file content. -/

/-- `re.sub(r"<[^>]+>", "", line)`: delete every `<`…`>` span with at least
one non-`>` character inside. -/
def stripTags : List Char → List Char
  | [] => []
  | c :: rest =>
    if c = '<' then
      let mid := rest.takeWhile (fun x => x ≠ '>')
      let after := rest.drop mid.length
      if mid.isEmpty || after.isEmpty then c :: stripTags rest
      else stripTags (after.drop 1)
    else c :: stripTags rest
termination_by l => l.length
decreasing_by
  · simp
  · simp only [List.length_drop, List.length_cons]
    omega
  · simp

/-- Python `pat in s` on strings: `pat` occurs contiguously in `s`. -/
def hasSub (pat : List Char) : List Char → Bool
  | [] => pat.isEmpty
  | c :: cs => pat.isPrefixOf (c :: cs) || hasSub pat cs

/-- One line of the caption file, filtered and cleaned as in the `for line in
lines` loop: `none` when the line is skipped. -/
def captionLineFilter (raw : String) : Option String :=
  let line := pyStrip raw
  if line = "" then none
  else if line.startsWith "WEBVTT" then none
  else if hasSub "-->".data line.data then none
  else if line.data ≠ [] && line.data.all (·.isDigit) then none
  else if line.startsWith "Kind:" || line.startsWith "Language:" then none
  else
    let clean := pyStrip ⟨stripTags line.data⟩
    if clean = "" then none else some clean

/-- `text_lines` of `_download_and_parse_captions`, for a given file content. -/
def textLinesOf (content : String) : List String :=
  (content.splitOn "\n").filterMap captionLineFilter

/-- The duplicate-removal loop (`seen` set, first occurrence kept). -/
def pyDedupGo (seen : List String) : List String → List String
  | [] => []
  | x :: xs => if x ∈ seen then pyDedupGo seen xs else x :: pyDedupGo (x :: seen) xs

/-- `unique_lines` of `_download_and_parse_captions`. -/
def pyDedup (l : List String) : List String := pyDedupGo [] l

/-- A transcription result dict (`status`/`text`/`language`/`source`). -/
structure CaptionResult where
  status : String
  text : String
  language : String
  source : String
deriving DecidableEq

/-- The parsing stage of `_download_and_parse_captions`, applied to the
downloaded caption file content: joined unique cleaned lines, success iff the
text is non-empty and longer than 50 characters. -/
def parseCaptions (content : String) (lang : String) : Option CaptionResult :=
  let text := " ".intercalate (pyDedup (textLinesOf content))
  if text ≠ "" ∧ text.length > 50 then
    some { status := "success", text := text, language := lang,
           source := "youtube_captions" }
  else none

/-! ## `YouTubeTranscriber._get_youtube_captions` (youtube.py lines 36-83) -/

/-- One entry of a subtitle-format list (`ext`/`url` keys of a format dict;
a missing key is `none`). -/
structure Fmt where
  ext : Option String
  url : Option String
deriving DecidableEq

/-- The `info` dict returned by `ydl.extract_info`: the `subtitles` and
`automatic_captions` mappings from language to format lists. -/
structure CaptionsInfo where
  subtitles : List (String × List Fmt)
  auto_captions : List (String × List Fmt)

/-- Dict lookup `d.get(k)` / `d[k]` on an association list. -/
def dictGet (d : List (String × α)) (k : String) : Option α :=
  (d.find? (fun kv => kv.1 = k)).map (fun kv => kv.2)

/-- The caption formats accepted by `_get_youtube_captions`. -/
def allowedExts : List String := ["vtt", "srv1", "srv2", "srv3", "ttml", "json3"]

/-- One format's candidate URL: present when its `ext` is supported and its
`url` is truthy (present and non-empty). -/
def fmtCandidate (fmt : Fmt) : Option String :=
  if (match fmt.ext with | some e => allowedExts.contains e | none => false) then
    match fmt.url with
    | some u => if u = "" then none else some u
    | none => none
  else none

/-- The inner `for fmt in …` loop: the URL of the first format with a
supported `ext` and a truthy `url`. -/
def firstSupportedUrl (fmts : List Fmt) : Option String :=
  fmts.findSome? fmtCandidate

/-- The preferred caption languages, in the order tried. -/
def langPriority : List String := ["ru", "en", "uk"]

/-- The nested loops of `_get_youtube_captions`: per language in priority
order, first the manual subtitles then the auto captions; the function
returns at the first format with a supported `ext` and a URL. -/
def firstCaptionUrl (info : CaptionsInfo) : Option String :=
  langPriority.findSome? fun lang =>
    (match dictGet info.subtitles lang with
     | some fmts => firstSupportedUrl fmts
     | none => none)
    <|>
    (match dictGet info.auto_captions lang with
     | some fmts => firstSupportedUrl fmts
     | none => none)

/-- Environment of `_get_youtube_captions`: the result of `extract_info`
(`none` models the call raising, which the function catches) and an oracle
for `_download_and_parse_captions` as a function of the caption URL. -/
structure CapEnv where
  info : Option CaptionsInfo
  parse : String → Option CaptionResult

/-- `YouTubeTranscriber._get_youtube_captions`: on the first format with a
supported `ext` and a URL it immediately returns that single format's
download-and-parse result (which may be `none`); when no such format exists,
or `extract_info` raised, it returns `none`. -/
def getYoutubeCaptions (env : CapEnv) : Option CaptionResult :=
  match env.info with
  | none => none
  | some info =>
    match firstCaptionUrl info with
    | some u => env.parse u
    | none => none

/-! ## `YouTubeTranscriber.get_transcript` / `_download_audio`
(youtube.py lines 145-243) and the `/transcribe_youtube` endpoint
(main.py lines 165-207) -/

/-- An `HTTPException(status_code, detail)`. -/
structure HErr where
  code : Nat
  detail : String
deriving DecidableEq

/-- Outcome of `_download_audio`'s yt-dlp call, after `tempfile.mkdtemp()`
has created the temp directory:
  * `ok` — the mp3 file exists and is non-empty, its path is returned;
  * `failNoFile` — the download raised, or produced no file;
  * `failEmptyFile` — a file was produced but with size 0 (the function
    raises without returning the path). -/
inductive DlOutcome where
  | ok
  | failNoFile
  | failEmptyFile
deriving DecidableEq

/-- Environment of `get_transcript`: the video URL and oracles for the
external effects (caption lookup, audio download, Whisper).  A Whisper
outcome of `.error m` models `model.transcribe` raising with message `m`;
`.ok t` models it returning `{"text": t}`. -/
structure TransEnv where
  video_url : String
  cap : CapEnv
  dl : DlOutcome
  whisper : Except String String

/-- The temp-file bookkeeping of one `get_transcript` run. -/
structure Trace where
  downloadAttempted : Bool
  whisperInvoked : Bool
  audioDirCreated : Bool
  audioFileCreated : Bool
  audioFileRemoved : Bool
  audioDirRemoved : Bool
deriving DecidableEq

/-- The empty trace (nothing attempted, created or removed). -/
def Trace.none : Trace :=
  ⟨false, false, false, false, false, false⟩

/-- `YouTubeTranscriber.get_transcript`: captions first, else download audio
and run Whisper; the `finally` block removes the audio file and its temp
directory only when `audio_path` was assigned (the download returned). -/
def get_transcript (env : TransEnv) : Except HErr CaptionResult × Trace :=
  match extract_video_id env.video_url with
  | .error msg =>
    (.error ⟨500, "Transcription failed: " ++ msg⟩, Trace.none)
  | .ok _ =>
    match getYoutubeCaptions env.cap with
    | some c => (.ok c, Trace.none)
    | none =>
      match env.dl with
      | .failNoFile =>
        (.error ⟨500, "Failed to download audio from YouTube"⟩,
         { downloadAttempted := true, whisperInvoked := false,
           audioDirCreated := true, audioFileCreated := false,
           audioFileRemoved := false, audioDirRemoved := false })
      | .failEmptyFile =>
        (.error ⟨500, "Failed to download audio from YouTube"⟩,
         { downloadAttempted := true, whisperInvoked := false,
           audioDirCreated := true, audioFileCreated := true,
           audioFileRemoved := false, audioDirRemoved := false })
      | .ok =>
        let tr : Trace :=
          { downloadAttempted := true, whisperInvoked := true,
            audioDirCreated := true, audioFileCreated := true,
            audioFileRemoved := true, audioDirRemoved := true }
        match env.whisper with
        | .error m => (.error ⟨500, "Transcription failed: " ++ m⟩, tr)
        | .ok t =>
          if t = "" then
            (.error ⟨500, "Whisper returned empty result"⟩, tr)
          else
            (.ok { status := "success", text := pyStrip t, language := "ru",
                   source := "whisper" }, tr)

/-- The response of `/transcribe_youtube`: a `FileResponse` serving the
transcript temp file under a download filename. -/
structure FileResp where
  filename : String
deriving DecidableEq

/-- Temp-file bookkeeping of one `/transcribe_youtube` request: the
`get_transcript` trace plus the transcript `.txt` temp file the endpoint
writes (`NamedTemporaryFile(delete=False)`). -/
structure EndpointTrace where
  inner : Trace
  transcriptCreated : Bool
  transcriptRemoved : Bool
deriving DecidableEq

/-- The `/transcribe_youtube` endpoint: reject a missing/empty `video_url`
with 400; propagate `get_transcript` errors; on success write the transcript
to a temp file (`delete=False`) and return it as a `FileResponse`. -/
def transcribe_youtube (body : Option String) (env : TransEnv) :
    Except HErr FileResp × EndpointTrace :=
  match body with
  | none => (.error ⟨400, "video_url is required"⟩, ⟨Trace.none, false, false⟩)
  | some url =>
    if url = "" then
      (.error ⟨400, "video_url is required"⟩, ⟨Trace.none, false, false⟩)
    else
      let env' := { env with video_url := url }
      match get_transcript env' with
      | (.error e, tr) => (.error e, ⟨tr, false, false⟩)
      | (.ok _, tr) =>
        let filename :=
          match extract_video_id url with
          | .ok vid => "youtube_transcript_" ++ vid ++ ".txt"
          | .error _ => "youtube_transcript.txt"
        (.ok ⟨filename⟩, ⟨tr, true, false⟩)

/-! ## `/translate_file` and `/analyze_code` (main.py lines 60-162) -/

/-- The JSON body returned by `/translate_file` on HTTP 200. -/
structure TFResponse where
  status : String
  filename : String
  translated_text : String
  original_text : String
  source_chars : Nat
  translated_chars : Nat
deriving DecidableEq

/-- The `/translate_file` endpoint after text extraction succeeded: reject
empty text with 400, else call the translation model and wrap its returned
string in a `status: success` body. -/
def translate_file (api : ApiOutcome) (filename : String) (text : String) :
    Except HErr TFResponse :=
  if pyStrip text = "" then .error ⟨400, "No extractable text"⟩
  else
    let translated := translate_text api text
    .ok { status := "success",
          filename := "translated_" ++ (filename.splitOn ".").headD "" ++ ".txt",
          translated_text := translated,
          original_text :=
            text.take 500 ++ (if text.length > 500 then "..." else ""),
          source_chars := text.length,
          translated_chars := translated.length }

/-- The JSON body returned by `/analyze_code` on HTTP 200. -/
structure ACResponse where
  status : String
  explanation : String
  filename : String
deriving DecidableEq

/-- The `/analyze_code` endpoint after the code was decoded: call the
analysis model, reject an empty/whitespace explanation with 500, else wrap
the returned string in a `status: success` body. -/
def analyze_code (api : String → ApiOutcome)
    (code analysis_type filename : String) : Except HErr ACResponse :=
  let explanation := explain_code api code analysis_type
  if explanation = "" ∨ pyStrip explanation = "" then
    .error ⟨500, "No analysis generated - empty response"⟩
  else
    .ok { status := "success", explanation := explanation,
          filename := filename }

/-! ## `backend/database.py` and the backend's state (claim C7)

`database.py` declares the `user_requests` table; no other module of the
repository imports `database`, so no endpoint or bot handler mentions it. -/

/-- A row of the `user_requests` table (`UserRequest` model, database.py). -/
structure UserRequestRow where
  id : Nat
  user_id : String
  action : String
  file_type : String
  timestamp : Nat
  status : String
deriving DecidableEq

/-- The backend's persistent state: the attached request-log table. -/
structure AppState where
  user_requests : List UserRequestRow
deriving DecidableEq

/-- One incoming backend request, with the oracles its handler needs. -/
inductive BackendCall where
  | translateFile (api : ApiOutcome) (filename text : String)
  | analyzeCode (api : String → ApiOutcome) (code analysis_type filename : String)
  | transcribeYoutube (body : Option String) (env : TransEnv)
  | health

/-- The response of a backend request (union of the endpoint responses). -/
inductive BackendOut where
  | translated (r : Except HErr TFResponse)
  | analyzed (r : Except HErr ACResponse)
  | transcript (r : Except HErr FileResp × EndpointTrace)
  | healthOk

/-- One backend request step over the application state: the handlers are
exactly the endpoint functions, which never mention `user_requests`. -/
def backendStep (call : BackendCall) (st : AppState) : AppState × BackendOut :=
  (st,
   match call with
   | .translateFile api filename text => .translated (translate_file api filename text)
   | .analyzeCode api code ty filename => .analyzed (analyze_code api code ty filename)
   | .transcribeYoutube body env => .transcript (transcribe_youtube body env)
   | .health => .healthOk)

/-! ## `telegram_bot/bot.py`: `BotHandler` -/

/-- `YOUTUBE_URL_REGEX.search` succeeds:
`(https?://)?(www\.)?(youtube\.com/watch\?v=|youtu\.be/)[\w-]+` occurs in the
text.  The optional groups and the character class coincide with those of
`extract_video_id`'s patterns, so the search machinery is shared. -/
def ytMatches (s : String) : Bool :=
  (searchCapture coreWatch s.data).isSome || (searchCapture coreBe s.data).isSome

/-- Python truthiness of `context.user_data.get("action")`. -/
def pyFalsy (a : Option String) : Bool :=
  match a with
  | none => true
  | some s => s = ""

/-- An incoming Telegram message as `handle_message` inspects it:
`update.message.text` / `update.message.document` / anything else. -/
inductive Msg where
  | text (s : String)
  | document (filename : String)
  | other
deriving DecidableEq

/-- What `handle_message` did with a message (which reply was sent, or which
processing handler was invoked). -/
inductive HMResult where
  | promptChooseAction
  | processedDocument
  | processedYoutube
  | sendFileReply
  | unsupportedType
deriving DecidableEq

/-- `BotHandler.handle_message` (bot.py lines 145-193): the routing decision
and the `user_data["action"]` slot after it.  A YouTube-looking text with no
action selected sets `action = "transcribe"` and is handed to
`handle_youtube_link`; other messages without an action get the
"choose an action" prompt. -/
def handle_message (action : Option String) (msg : Msg) :
    HMResult × Option String :=
  let hasText : Bool := match msg with | .text s => s ≠ "" | _ => false
  if pyFalsy action && hasText then
    match msg with
    | .text s =>
      if ytMatches s then (.processedYoutube, some "transcribe")
      else (.promptChooseAction, action)
    | _ => (.promptChooseAction, action)
  else if pyFalsy action then (.promptChooseAction, action)
  else
    match msg with
    | .document _ => (.processedDocument, action)
    | .text s =>
      if s ≠ "" then
        if action = some "transcribe" then (.processedYoutube, action)
        else (.sendFileReply, action)
      else (.unsupportedType, action)
    | .other => (.unsupportedType, action)

/-! ### The HTTP traffic of the bot's processing handlers (claim C6) -/

/-- One HTTP request issued by the bot (`requests.get` / `requests.post`). -/
inductive Req where
  | get (path : String)
  | post (path : String)
deriving DecidableEq

/-- The JSON body of a backend response, as far as the bot reads it. -/
structure RespBody where
  status : Option String
  payload : Option String
deriving DecidableEq

/-- Outcome of the bot's single `requests.post`. -/
inductive PostOutcome where
  | timeout
  | connError
  | resp (status : Nat) (body : RespBody)
deriving DecidableEq

/-- Environment of one bot processing handler: the health-check result
(`none` models `requests.get` raising a `RequestException`), the POST
outcome, whether downloading the user's file from Telegram succeeds, and
whether delivering the reply succeeds. -/
structure BotEnv where
  health : Option Nat
  post : PostOutcome
  fileDownloadOk : Bool
  deliverOk : Bool

/-- Classification of the handler's final reply to the user. -/
inductive UserReply where
  | success
  | error
deriving DecidableEq

/-- `BotHandler._handle_code_analysis` (bot.py lines 234-306): health check,
one POST to `/analyze_code`, and per-outcome replies; every failure is
caught and answered with an error message, with no second POST. -/
def handleCodeAnalysis (env : BotEnv) : List Req × UserReply :=
  if env.health ≠ some 200 then ([.get "/health"], .error)
  else if !env.fileDownloadOk then ([.get "/health"], .error)
  else
    let trace := [.get "/health", Req.post "/analyze_code"]
    match env.post with
    | .timeout => (trace, .error)
    | .connError => (trace, .error)
    | .resp status body =>
      if status = 200 then
        if body.status = some "success" then
          match body.payload with
          | some e =>
            if e = "" then (trace, .error)
            else (trace, if env.deliverOk then .success else .error)
          | none => (trace, .error)
        else (trace, .error)
      else (trace, .error)

/-- `BotHandler._handle_translation` (bot.py lines 309-351): same shape with
one POST to `/translate_file`. -/
def handleTranslation (env : BotEnv) : List Req × UserReply :=
  if env.health ≠ some 200 then ([.get "/health"], .error)
  else if !env.fileDownloadOk then ([.get "/health"], .error)
  else
    let trace := [.get "/health", Req.post "/translate_file"]
    match env.post with
    | .timeout => (trace, .error)
    | .connError => (trace, .error)
    | .resp status body =>
      if status = 200 then
        if body.status = some "success" then
          match body.payload with
          | some t =>
            if t = "" then (trace, .error)
            else (trace, if env.deliverOk then .success else .error)
          | none => (trace, .error)
        else (trace, .error)
      else (trace, .error)

/-- `BotHandler.handle_youtube_link` (bot.py lines 463-538): guards on the
selected action and the URL, health check, one POST to
`/transcribe_youtube`, per-outcome replies, no retry. -/
def handleYoutubeLink (action : Option String) (text : String) (env : BotEnv) :
    List Req × UserReply :=
  if action ≠ some "transcribe" then ([], .error)
  else if !ytMatches text then ([], .error)
  else if env.health ≠ some 200 then ([.get "/health"], .error)
  else
    let trace := [.get "/health", Req.post "/transcribe_youtube"]
    match env.post with
    | .timeout => (trace, .error)
    | .connError => (trace, .error)
    | .resp status _ =>
      if status = 200 then (trace, if env.deliverOk then .success else .error)
      else (trace, .error)

/-- Number of POSTs to a given path in a request trace. -/
def countPosts (path : String) (trace : List Req) : Nat :=
  (trace.filter (fun r => r = Req.post path)).length

/-- A bot handler invocation (used to state that the bot never touches the
request-log table either). -/
inductive BotCall where
  | message (action : Option String) (msg : Msg)
  | codeAnalysis (env : BotEnv)
  | translation (env : BotEnv)
  | youtubeLink (action : Option String) (text : String) (env : BotEnv)

/-- The response of a bot handler invocation. -/
inductive BotOut where
  | routed (r : HMResult × Option String)
  | http (r : List Req × UserReply)

/-- One bot handler step over the backend state: the handlers are exactly
the functions above, which never mention `user_requests`. -/
def botStep (call : BotCall) (st : AppState) : AppState × BotOut :=
  (st,
   match call with
   | .message action msg => .routed (handle_message action msg)
   | .codeAnalysis env => .http (handleCodeAnalysis env)
   | .translation env => .http (handleTranslation env)
   | .youtubeLink action text env => .http (handleYoutubeLink action text env))

/-! ## Specification-side definitions and concrete example environments -/

/-- The format list of a dict lookup, empty when the language is absent. -/
def fmtsOf (o : Option (List Fmt)) : List Fmt :=
  match o with
  | some fs => fs
  | none => []

/-- Specification-side view of the caption search order: every candidate URL
(supported `ext`, truthy `url`), per language in priority order, manual
subtitles before auto captions. -/
def candidateUrls (info : CaptionsInfo) : List String :=
  langPriority.flatMap fun lang =>
    (fmtsOf (dictGet info.subtitles lang)).filterMap fmtCandidate ++
    (fmtsOf (dictGet info.auto_captions lang)).filterMap fmtCandidate

/-- A parse result used by the concrete examples. -/
def exParseResult : CaptionResult :=
  { status := "success", text := ⟨List.replicate 60 'a'⟩, language := "en",
    source := "youtube_captions" }

/-- Caption info with a Russian and an English manual `vtt` track. -/
def exInfoC3 : CaptionsInfo :=
  { subtitles := [("ru", [⟨some "vtt", some "u1"⟩]), ("en", [⟨some "vtt", some "u2"⟩])],
    auto_captions := [] }

/-- Environment where the Russian track fails to download/parse and the
English track parses successfully. -/
def exCapEnvC3 : CapEnv :=
  { info := some exInfoC3,
    parse := fun u => if u = "u2" then some exParseResult else none }

/-- A caption result found on the caption path. -/
def exCapFound : CaptionResult :=
  { status := "success", text := "caption text", language := "ru",
    source := "youtube_captions" }

/-- Environment where the caption lookup succeeds. -/
def exCapEnvFound : CapEnv :=
  { info := some { subtitles := [("ru", [⟨some "vtt", some "u"⟩])], auto_captions := [] },
    parse := fun _ => some exCapFound }

/-- Transcription environment on the caption path. -/
def exEnvCapOk : TransEnv :=
  { video_url := "https://youtu.be/abc123", cap := exCapEnvFound,
    dl := .ok, whisper := .ok "t" }

/-- Environment with no captions at all. -/
def exCapEnvNone : CapEnv :=
  { info := some { subtitles := [], auto_captions := [] }, parse := fun _ => none }

/-- Transcription environment where the audio download fails. -/
def exEnvDlFail : TransEnv :=
  { video_url := "https://youtu.be/abc123", cap := exCapEnvNone,
    dl := .failNoFile, whisper := .ok "t" }

/-! ## Helper lemmas -/

theorem pyStripL_eq_nil_iff {l : List Char} :
    pyStripL l = [] ↔ ∀ c ∈ l, pyIsSpace c = true := by
  unfold pyStripL
  constructor
  · intro h c hc
    have h1 : (l.dropWhile pyIsSpace).reverse.dropWhile pyIsSpace = [] := by
      rwa [List.reverse_eq_nil_iff] at h
    have h3 : ∀ x ∈ l.dropWhile pyIsSpace, pyIsSpace x = true := fun x hx =>
      List.dropWhile_eq_nil_iff.mp h1 x (List.mem_reverse.mpr hx)
    have h4 := List.takeWhile_append_dropWhile (p := pyIsSpace) (l := l)
    rcases List.mem_append.mp (h4 ▸ hc) with h5 | h5
    · exact List.mem_takeWhile_imp h5
    · exact h3 c h5
  · intro h
    have hd : l.dropWhile pyIsSpace = [] :=
      List.dropWhile_eq_nil_iff.mpr (fun c hc => h c hc)
    simp [hd]

theorem pyStrip_append_ne_empty (a m : String) (c : Char) (hc : c ∈ a.data)
    (hw : pyIsSpace c = false) : pyStrip (a ++ m) ≠ "" := by
  intro h
  have hl : pyStripL (a ++ m).data = [] := congrArg String.data h
  have := pyStripL_eq_nil_iff.mp hl c
    (by rw [String.data_append]; exact List.mem_append_left _ hc)
  rw [hw] at this
  cases this

theorem findSome?_eq_head?_filterMap (f : α → Option β) (l : List α) :
    l.findSome? f = (l.filterMap f).head? := by
  induction l with
  | nil => rfl
  | cons a l ih =>
    cases h : f a with
    | none =>
      rw [List.findSome?_cons_of_isNone _ (by simp [h]),
        List.filterMap_cons_none h, ih]
    | some b =>
      rw [List.findSome?_cons_of_isSome _ (by simp [h]),
        List.filterMap_cons_some h, List.head?_cons, h]

theorem pyDedupGo_nil (seen : List String) : pyDedupGo seen [] = [] := rfl

theorem pyDedupGo_cons_mem {seen : List String} {y : String} (ys : List String)
    (h : y ∈ seen) : pyDedupGo seen (y :: ys) = pyDedupGo seen ys := by
  simp only [pyDedupGo, if_pos h]

theorem pyDedupGo_cons_nmem {seen : List String} {y : String} (ys : List String)
    (h : y ∉ seen) : pyDedupGo seen (y :: ys) = y :: pyDedupGo (y :: seen) ys := by
  simp only [pyDedupGo, if_neg h]

theorem pyDedupGo_sublist (seen : List String) (l : List String) :
    (pyDedupGo seen l).Sublist l := by
  induction l generalizing seen with
  | nil => exact List.Sublist.refl _
  | cons x xs ih =>
    by_cases h : x ∈ seen
    · rw [pyDedupGo_cons_mem xs h]
      exact (ih seen).cons x
    · rw [pyDedupGo_cons_nmem xs h]
      exact (ih (x :: seen)).cons₂ x

theorem mem_pyDedupGo {seen : List String} {l : List String} {x : String} :
    x ∈ pyDedupGo seen l ↔ x ∈ l ∧ x ∉ seen := by
  induction l generalizing seen with
  | nil =>
    constructor
    · intro hx; cases hx
    · rintro ⟨hm, -⟩; cases hm
  | cons y ys ih =>
    by_cases h : y ∈ seen
    · rw [pyDedupGo_cons_mem ys h, ih]
      constructor
      · rintro ⟨hm, hn⟩; exact ⟨List.mem_cons_of_mem _ hm, hn⟩
      · rintro ⟨hm, hn⟩
        rcases List.mem_cons.mp hm with rfl | hm'
        · exact absurd h hn
        · exact ⟨hm', hn⟩
    · rw [pyDedupGo_cons_nmem ys h]
      constructor
      · intro hx
        rcases List.mem_cons.mp hx with rfl | hx'
        · exact ⟨List.mem_cons_self _ _, h⟩
        · obtain ⟨hm, hn⟩ := ih.mp hx'
          exact ⟨List.mem_cons_of_mem _ hm, fun hs => hn (List.mem_cons_of_mem _ hs)⟩
      · rintro ⟨hm, hn⟩
        rcases List.mem_cons.mp hm with rfl | hm'
        · exact List.mem_cons_self _ _
        · by_cases hxy : x = y
          · subst hxy; exact List.mem_cons_self _ _
          · refine List.mem_cons_of_mem _ (ih.mpr ⟨hm', fun hs => ?_⟩)
            rcases List.mem_cons.mp hs with h1 | h2
            · exact hxy h1
            · exact hn h2

theorem pyDedupGo_nodup (seen : List String) (l : List String) :
    (pyDedupGo seen l).Nodup := by
  induction l generalizing seen with
  | nil => exact List.nodup_nil
  | cons x xs ih =>
    by_cases h : x ∈ seen
    · rw [pyDedupGo_cons_mem xs h]; exact ih seen
    · rw [pyDedupGo_cons_nmem xs h, List.nodup_cons]
      refine ⟨fun hx => ?_, ih (x :: seen)⟩
      exact (mem_pyDedupGo.mp hx).2 (List.mem_cons_self x seen)

theorem firstSupportedUrl_eq_head (fmts : List Fmt) :
    firstSupportedUrl fmts = (fmts.filterMap fmtCandidate).head? :=
  findSome?_eq_head?_filterMap fmtCandidate fmts

theorem firstCaptionUrl_eq_head (info : CaptionsInfo) :
    firstCaptionUrl info = (candidateUrls info).head? := by
  unfold firstCaptionUrl candidateUrls
  rw [List.head?_flatMap]
  congr 1
  funext lang
  rw [List.head?_append]
  have e1 : (match dictGet info.subtitles lang with
      | some fmts => firstSupportedUrl fmts
      | none => none)
      = ((fmtsOf (dictGet info.subtitles lang)).filterMap fmtCandidate).head? := by
    cases dictGet info.subtitles lang with
    | none => rfl
    | some fmts => exact firstSupportedUrl_eq_head fmts
  have e2 : (match dictGet info.auto_captions lang with
      | some fmts => firstSupportedUrl fmts
      | none => none)
      = ((fmtsOf (dictGet info.auto_captions lang)).filterMap fmtCandidate).head? := by
    cases dictGet info.auto_captions lang with
    | none => rfl
    | some fmts => exact firstSupportedUrl_eq_head fmts
  rw [e1, e2]
  cases ((fmtsOf (dictGet info.subtitles lang)).filterMap fmtCandidate).head? <;> rfl

/-! ## Claim theorems -/

/-- **C3** (corrected, counterexample): with a Russian manual `vtt` track
whose download/parse fails and an English manual `vtt` track that parses
successfully, `_get_youtube_captions` returns `None`: it does not return the
first caption track that downloads and parses successfully — it returns the
parse result of the first supported track only, and never tries the next. -/
theorem getYoutubeCaptions_skips_later_tracks :
    getYoutubeCaptions exCapEnvC3 = none ∧
    exCapEnvC3.parse "u2" = some exParseResult ∧
    candidateUrls exInfoC3 = ["u1", "u2"] :=
  ⟨rfl, rfl, rfl⟩

/-- **C3** (amended): caption lookup tries the languages ru, en, uk in that
order, manual subtitles before auto captions within each language, selects
the first track in a supported format with a URL, and returns that single
track's download-and-parse result — which may be no result; later candidate
tracks are never tried. -/
theorem getYoutubeCaptions_first_candidate (env : CapEnv) :
    getYoutubeCaptions env =
      match env.info with
      | none => none
      | some info =>
        match (candidateUrls info).head? with
        | some u => env.parse u
        | none => none := by
  cases hinfo : env.info with
  | none => simp only [getYoutubeCaptions, hinfo]
  | some info =>
    simp only [getYoutubeCaptions, hinfo, firstCaptionUrl_eq_head]

/-- **C10** (confirmed): caption parsing filters out timing lines, headers,
line numbers and markup (`textLinesOf`), removes duplicate lines while
preserving first-occurrence order (the result is a duplicate-free sublist
with the same members), and returns a success result if and only if the
joined text is longer than 50 characters. -/
theorem parse_captions_spec (content lang : String) :
    (parseCaptions content lang =
        some { status := "success",
               text := " ".intercalate (pyDedup (textLinesOf content)),
               language := lang, source := "youtube_captions" }
      ↔ (" ".intercalate (pyDedup (textLinesOf content))).length > 50) ∧
    (parseCaptions content lang = none
      ↔ ¬ (" ".intercalate (pyDedup (textLinesOf content))).length > 50) ∧
    (pyDedup (textLinesOf content)).Nodup ∧
    (pyDedup (textLinesOf content)).Sublist (textLinesOf content) ∧
    (∀ x, x ∈ pyDedup (textLinesOf content) ↔ x ∈ textLinesOf content) := by
  refine ⟨?_, ?_, pyDedupGo_nodup [] _, pyDedupGo_sublist [] _, fun x => ?_⟩
  · by_cases hlen : (" ".intercalate (pyDedup (textLinesOf content))).length > 50
    · have hne : " ".intercalate (pyDedup (textLinesOf content)) ≠ "" := by
        intro h; rw [h] at hlen; exact absurd hlen (by decide)
      simp [parseCaptions, hne, hlen]
    · simp [parseCaptions, hlen]
  · by_cases hlen : (" ".intercalate (pyDedup (textLinesOf content))).length > 50
    · have hne : " ".intercalate (pyDedup (textLinesOf content)) ≠ "" := by
        intro h; rw [h] at hlen; exact absurd hlen (by decide)
      simp [parseCaptions, hne, hlen]
    · simp [parseCaptions, hlen]
  · show x ∈ pyDedupGo [] (textLinesOf content) ↔ x ∈ textLinesOf content
    rw [mem_pyDedupGo]
    simp

/-- **C4** (corrected, counterexample): when the external model call raises,
`/translate_file` and `/analyze_code` return an HTTP 200 body with
`status: "success"` whose payload is the caught error's message — a failed
external call is reported as a normal successful result. -/
theorem error_reported_as_success :
    (translate_file (.exn "boom") "doc.pdf" "hello").toOption.map
        (fun r => (r.status, r.translated_text))
      = some ("success", "⚠️ Translation service unavailable: boom") ∧
    (analyze_code (fun _ => .exn "boom") "print(1)" "explain" "a.py").toOption.map
        (fun r => (r.status, r.explanation))
      = some ("success", "⚠️ Error during code analysis: boom") :=
  ⟨rfl, rfl⟩

/-- **C4** (amended): when a call to the external model service raises, the
exception is caught and an error message is produced for the user — but the
message is returned inside a `status: "success"` response body of
`/translate_file` and `/analyze_code` rather than as an HTTP error. -/
theorem model_errors_caught_but_wrapped (m filename text code ty fn : String)
    (api : String → ApiOutcome) :
    (translate_text (.exn m) text
      = if pyStrip text = "" then ""
        else "⚠️ Translation service unavailable: " ++ m) ∧
    (api (promptFor ty code) = .exn m →
      explain_code api code ty = "⚠️ Error during code analysis: " ++ m) ∧
    (pyStrip text ≠ "" →
      translate_file (.exn m) filename text
        = .ok { status := "success",
                filename := "translated_" ++ (filename.splitOn ".").headD "" ++ ".txt",
                translated_text := "⚠️ Translation service unavailable: " ++ m,
                original_text :=
                  text.take 500 ++ (if text.length > 500 then "..." else ""),
                source_chars := text.length,
                translated_chars :=
                  ("⚠️ Translation service unavailable: " ++ m).length }) ∧
    (api (promptFor ty code) = .exn m →
      analyze_code api code ty fn
        = .ok { status := "success",
                explanation := "⚠️ Error during code analysis: " ++ m,
                filename := fn }) := by
  refine ⟨?_, ?_, ?_, ?_⟩
  · by_cases h : pyStrip text = "" <;> simp [translate_text, h]
  · intro h; simp [explain_code, h]
  · intro h
    simp [translate_file, h, translate_text]
  · intro h
    have hx : explain_code api code ty = "⚠️ Error during code analysis: " ++ m := by
      simp [explain_code, h]
    have hne : ("⚠️ Error during code analysis: " ++ m) ≠ "" := by
      intro hbad
      have hdat := congrArg String.data hbad
      rw [String.data_append] at hdat
      exact absurd hdat (by simp)
    have hns : pyStrip ("⚠️ Error during code analysis: " ++ m) ≠ "" :=
      pyStrip_append_ne_empty _ m '⚠' (by decide) (by decide)
    simp [analyze_code, hx, hne, hns]

theorem get_transcript_trace (env : TransEnv) :
    (get_transcript env).2.audioFileRemoved
      = ((get_transcript env).2.downloadAttempted && (env.dl == DlOutcome.ok)) ∧
    (get_transcript env).2.audioDirRemoved
      = (get_transcript env).2.audioFileRemoved ∧
    (get_transcript env).2.audioDirCreated
      = (get_transcript env).2.downloadAttempted := by
  cases hx : extract_video_id env.video_url with
  | error m => simp [get_transcript, hx, Trace.none]
  | ok vid =>
    cases hc : getYoutubeCaptions env.cap with
    | some c => simp [get_transcript, hx, hc, Trace.none]
    | none =>
      cases hd : env.dl with
      | ok =>
        cases hw : env.whisper with
        | error m => simp [get_transcript, hx, hc, hd, hw]
        | ok t =>
          by_cases ht : t = "" <;> simp [get_transcript, hx, hc, hd, hw, ht]
      | failNoFile => simp [get_transcript, hx, hc, hd]
      | failEmptyFile => simp [get_transcript, hx, hc, hd]

/-- **C2** (confirmed): `get_transcript` first attempts the caption lookup
and returns its result when one is found (no download, no Whisper); the
audio download is attempted if and only if the URL was valid and the caption
lookup returned no result, and Whisper runs exactly when that download
succeeded. -/
theorem get_transcript_captions_first (env : TransEnv) (c : CaptionResult) :
    (get_transcript env).2.downloadAttempted
      = ((extract_video_id env.video_url).toOption.isSome
          && (getYoutubeCaptions env.cap).isNone) ∧
    (get_transcript env).2.whisperInvoked
      = ((get_transcript env).2.downloadAttempted && (env.dl == DlOutcome.ok)) ∧
    ((extract_video_id env.video_url).toOption.isSome = true →
      getYoutubeCaptions env.cap = some c →
      get_transcript env = (.ok c, Trace.none)) := by
  cases hx : extract_video_id env.video_url with
  | error m => simp [get_transcript, hx, Trace.none, Except.toOption]
  | ok vid =>
    cases hc : getYoutubeCaptions env.cap with
    | some c' =>
      refine ⟨by simp [get_transcript, hx, hc, Trace.none, Except.toOption],
        by simp [get_transcript, hx, hc, Trace.none], ?_⟩
      intro _ hcc
      injection hcc with hcc
      subst hcc
      simp [get_transcript, hx, hc]
    | none =>
      cases hd : env.dl with
      | ok =>
        cases hw : env.whisper with
        | error m => simp [get_transcript, hx, hc, hd, hw, Except.toOption]
        | ok t =>
          by_cases ht : t = "" <;>
            simp [get_transcript, hx, hc, hd, hw, ht, Except.toOption]
      | failNoFile => simp [get_transcript, hx, hc, hd, Except.toOption]
      | failEmptyFile => simp [get_transcript, hx, hc, hd, Except.toOption]

/-- **C1** (corrected, counterexample): on the successful caption path the
`/transcribe_youtube` endpoint creates the transcript temp file and exits
successfully without removing it; and when the audio download fails, the
temp directory created by `_download_audio` is left behind.  So not every
temporary file/directory is removed on every exit path. -/
theorem transcribe_youtube_leaks :
    (transcribe_youtube (some "https://youtu.be/abc123") exEnvCapOk).1
      = .ok ⟨"youtube_transcript_abc123.txt"⟩ ∧
    (transcribe_youtube (some "https://youtu.be/abc123") exEnvCapOk).2.transcriptCreated
      = true ∧
    (transcribe_youtube (some "https://youtu.be/abc123") exEnvCapOk).2.transcriptRemoved
      = false ∧
    (transcribe_youtube (some "https://youtu.be/abc123") exEnvDlFail).2.inner.audioDirCreated
      = true ∧
    (transcribe_youtube (some "https://youtu.be/abc123") exEnvDlFail).2.inner.audioDirRemoved
      = false :=
  ⟨rfl, rfl, rfl, rfl, rfl⟩

/-- **C1** (amended): the downloaded audio file and its temp directory are
removed exactly on the exit paths where `_download_audio` returned a path
(the download succeeded); when the download fails after creating the temp
directory, that directory is not removed; and the transcript text file
written by `/transcribe_youtube` is created exactly on the success exit and
is never removed (it is handed to the `FileResponse`). -/
theorem transcribe_youtube_cleanup (body : Option String) (env : TransEnv) :
    (transcribe_youtube body env).2.transcriptRemoved = false ∧
    (transcribe_youtube body env).2.inner.audioFileRemoved
      = ((transcribe_youtube body env).2.inner.downloadAttempted
          && (env.dl == DlOutcome.ok)) ∧
    (transcribe_youtube body env).2.inner.audioDirRemoved
      = (transcribe_youtube body env).2.inner.audioFileRemoved ∧
    (transcribe_youtube body env).2.transcriptCreated
      = (transcribe_youtube body env).1.toOption.isSome := by
  cases body with
  | none => simp [transcribe_youtube, Trace.none, Except.toOption]
  | some url =>
    by_cases hu : url = ""
    · simp [transcribe_youtube, hu, Trace.none, Except.toOption]
    · obtain ⟨ha, hb, -⟩ := get_transcript_trace { env with video_url := url }
      cases hg : get_transcript { env with video_url := url } with
      | mk res tr =>
        rw [hg] at ha hb
        simp only [] at ha hb
        cases res with
        | error e => simp [transcribe_youtube, hu, hg, ha, hb, Except.toOption]
        | ok r => simp [transcribe_youtube, hu, hg, ha, hb, Except.toOption]

/-- **C7** (confirmed): no backend endpoint and no bot handler reads or
writes the `user_requests` table: every request leaves the table unchanged,
and the response is the same whatever the table holds. -/
theorem request_log_untouched (call : BackendCall) (bcall : BotCall)
    (st st' : AppState) :
    (backendStep call st).1 = st ∧ (botStep bcall st).1 = st ∧
    (backendStep call st).2 = (backendStep call st').2 ∧
    (botStep bcall st).2 = (botStep bcall st').2 :=
  ⟨rfl, rfl, rfl, rfl⟩

theorem handleCodeAnalysis_trace (env : BotEnv) :
    (handleCodeAnalysis env).1
      = if env.health = some 200 ∧ env.fileDownloadOk = true
        then [.get "/health", .post "/analyze_code"] else [.get "/health"] := by
  by_cases h1 : env.health = some 200
  · by_cases h2 : env.fileDownloadOk = true
    · cases hp : env.post with
      | timeout => simp [handleCodeAnalysis, h1, h2, hp]
      | connError => simp [handleCodeAnalysis, h1, h2, hp]
      | resp s b =>
        rcases b with ⟨bs, bp⟩
        cases bp <;>
          simp [handleCodeAnalysis, h1, h2, hp, apply_ite Prod.fst]
    · simp [handleCodeAnalysis, h1, h2]
  · simp [handleCodeAnalysis, h1]

theorem handleTranslation_trace (env : BotEnv) :
    (handleTranslation env).1
      = if env.health = some 200 ∧ env.fileDownloadOk = true
        then [.get "/health", .post "/translate_file"] else [.get "/health"] := by
  by_cases h1 : env.health = some 200
  · by_cases h2 : env.fileDownloadOk = true
    · cases hp : env.post with
      | timeout => simp [handleTranslation, h1, h2, hp]
      | connError => simp [handleTranslation, h1, h2, hp]
      | resp s b =>
        rcases b with ⟨bs, bp⟩
        cases bp <;>
          simp [handleTranslation, h1, h2, hp, apply_ite Prod.fst]
    · simp [handleTranslation, h1, h2]
  · simp [handleTranslation, h1]

theorem handleYoutubeLink_trace (action : Option String) (text : String)
    (env : BotEnv) :
    (handleYoutubeLink action text env).1
      = if action = some "transcribe" ∧ ytMatches text = true ∧ env.health = some 200
        then [.get "/health", .post "/transcribe_youtube"]
        else if action = some "transcribe" ∧ ytMatches text = true
        then [.get "/health"] else [] := by
  by_cases h0 : action = some "transcribe"
  · by_cases hm : ytMatches text = true
    · by_cases h1 : env.health = some 200
      · cases hp : env.post with
        | timeout => simp [handleYoutubeLink, h0, hm, h1, hp]
        | connError => simp [handleYoutubeLink, h0, hm, h1, hp]
        | resp s b =>
          simp [handleYoutubeLink, h0, hm, h1, hp, apply_ite Prod.fst]
      · simp [handleYoutubeLink, h0, hm, h1]
    · have hm' : ytMatches text = false := by simpa using hm
      simp [handleYoutubeLink, h0, hm']
  · simp [handleYoutubeLink, h0]

/-- **C5** (corrected, counterexample): a text message containing a YouTube
URL that arrives with no action selected is not answered with the
"choose an action" prompt: `handle_message` silently selects the transcribe
action and processes it. -/
theorem handle_message_url_processed :
    handle_message none (.text "https://youtu.be/dQw4w9WgXcQ")
      = (.processedYoutube, some "transcribe") := by decide

/-- **C5** (amended): with no action selected, a document or a non-YouTube
text is answered with the "choose an action" prompt and not processed; a
text containing a YouTube URL is the exception — it stores the transcribe
action and is processed immediately.  A document is processed only with an
action selected, and the YouTube handler runs only with the transcribe
action stored. -/
theorem handle_message_flow (action : Option String) (msg : Msg) (s d : String) :
    (pyFalsy action = true →
      handle_message action (.document d) = (.promptChooseAction, action)) ∧
    (pyFalsy action = true → ytMatches s = false →
      handle_message action (.text s) = (.promptChooseAction, action)) ∧
    (pyFalsy action = true → ytMatches s = true →
      handle_message action (.text s) = (.processedYoutube, some "transcribe")) ∧
    ((handle_message action msg).1 = .processedDocument → pyFalsy action = false) ∧
    ((handle_message action msg).1 = .processedYoutube →
      (handle_message action msg).2 = some "transcribe") := by
  refine ⟨?_, ?_, ?_, ?_, ?_⟩
  · intro hf; simp [handle_message, hf]
  · intro hf hm
    by_cases hs : s = ""
    · subst hs; simp [handle_message, hf]
    · simp [handle_message, hf, hs, hm]
  · intro hf hm
    have hs : s ≠ "" := by
      intro h; subst h; exact absurd hm (by decide)
    simp [handle_message, hf, hs, hm]
  · intro h
    by_cases hf : pyFalsy action = true
    · exfalso
      cases msg with
      | document d' => revert h; simp [handle_message, hf]
      | text s' =>
        revert h
        by_cases hs : s' = ""
        · subst hs; simp [handle_message, hf]
        · by_cases hm : ytMatches s' = true <;> simp [handle_message, hf, hs, hm]
      | other => revert h; simp [handle_message, hf]
    · simpa using hf
  · intro h
    by_cases hf : pyFalsy action = true
    · cases msg with
      | document d' => revert h; simp [handle_message, hf]
      | text s' =>
        revert h
        by_cases hs : s' = ""
        · subst hs; simp [handle_message, hf]
        · by_cases hm : ytMatches s' = true <;> simp [handle_message, hf, hs, hm]
      | other => revert h; simp [handle_message, hf]
    · have hf' : pyFalsy action = false := by simpa using hf
      cases msg with
      | document d' => revert h; simp [handle_message, hf']
      | text s' =>
        revert h
        by_cases hs : s' = ""
        · subst hs; simp [handle_message, hf']
        · by_cases ha : action = some "transcribe"
          · subst ha; simp [handle_message, hf', hs]
          · simp [handle_message, hf', hs, ha]
      | other => revert h; simp [handle_message, hf']

theorem countPosts_get_cons (p a : String) (l : List Req) :
    countPosts p (Req.get a :: l) = countPosts p l := by
  simp [countPosts]

theorem countPosts_le_aux (p x : String) :
    countPosts p [Req.post x] ≤ 1 := by
  simp only [countPosts, List.filter]
  split <;> simp

/-- **C6** (confirmed): each of the bot's processing handlers performs
exactly one POST to its backend endpoint when its guards and the health
check pass, and none otherwise — never more than one on any path — and when
the single POST fails (timeout, connection error, or a non-200 status) the
handler's final reply to the user is an error, with no retry. -/
theorem bot_one_post_no_retry (env : BotEnv) (action : Option String)
    (text p : String) (s : Nat) (b : RespBody) :
    countPosts "/analyze_code" (handleCodeAnalysis env).1
      = (if env.health = some 200 ∧ env.fileDownloadOk = true then 1 else 0) ∧
    countPosts "/translate_file" (handleTranslation env).1
      = (if env.health = some 200 ∧ env.fileDownloadOk = true then 1 else 0) ∧
    countPosts "/transcribe_youtube" (handleYoutubeLink action text env).1
      = (if action = some "transcribe" ∧ ytMatches text = true ∧
            env.health = some 200 then 1 else 0) ∧
    countPosts p (handleCodeAnalysis env).1 ≤ 1 ∧
    countPosts p (handleTranslation env).1 ≤ 1 ∧
    countPosts p (handleYoutubeLink action text env).1 ≤ 1 ∧
    ((env.post = .timeout ∨ env.post = .connError ∨
        (env.post = .resp s b ∧ s ≠ 200)) →
      (handleCodeAnalysis env).2 = .error ∧
      (handleTranslation env).2 = .error ∧
      (handleYoutubeLink action text env).2 = .error) := by
  refine ⟨?_, ?_, ?_, ?_, ?_, ?_, ?_⟩
  · rw [handleCodeAnalysis_trace]
    split_ifs <;> decide
  · rw [handleTranslation_trace]
    split_ifs <;> decide
  · rw [handleYoutubeLink_trace]
    split_ifs with hc1 hc2
    · decide
    · decide
    · decide
  · rw [handleCodeAnalysis_trace]
    split_ifs
    · rw [countPosts_get_cons]; exact countPosts_le_aux p _
    · rw [countPosts_get_cons]; simp [countPosts]
  · rw [handleTranslation_trace]
    split_ifs
    · rw [countPosts_get_cons]; exact countPosts_le_aux p _
    · rw [countPosts_get_cons]; simp [countPosts]
  · rw [handleYoutubeLink_trace]
    split_ifs
    · rw [countPosts_get_cons]; exact countPosts_le_aux p _
    · rw [countPosts_get_cons]; simp [countPosts]
    · simp [countPosts]
  · intro hfail
    by_cases h1 : env.health = some 200
    · by_cases h2 : env.fileDownloadOk = true
      · refine ⟨?_, ?_, ?_⟩
        · rcases hfail with hp | hp | ⟨hp, hs⟩ <;>
            simp [handleCodeAnalysis, h1, h2, hp, *]
        · rcases hfail with hp | hp | ⟨hp, hs⟩ <;>
            simp [handleTranslation, h1, h2, hp, *]
        · by_cases h0 : action = some "transcribe"
          · by_cases hm : ytMatches text = true
            · rcases hfail with hp | hp | ⟨hp, hs⟩ <;>
                simp [handleYoutubeLink, h0, hm, h1, hp, *]
            · have hm' : ytMatches text = false := by simpa using hm
              simp [handleYoutubeLink, h0, hm']
          · simp [handleYoutubeLink, h0]
      · refine ⟨by simp [handleCodeAnalysis, h1, h2],
          by simp [handleTranslation, h1, h2], ?_⟩
        by_cases h0 : action = some "transcribe"
        · by_cases hm : ytMatches text = true
          · rcases hfail with hp | hp | ⟨hp, hs⟩ <;>
              simp [handleYoutubeLink, h0, hm, h1, hp, *]
          · have hm' : ytMatches text = false := by simpa using hm
            simp [handleYoutubeLink, h0, hm']
        · simp [handleYoutubeLink, h0]
    · refine ⟨by simp [handleCodeAnalysis, h1],
        by simp [handleTranslation, h1], ?_⟩
      by_cases h0 : action = some "transcribe"
      · by_cases hm : ytMatches text = true
        · simp [handleYoutubeLink, h0, hm, h1]
        · have hm' : ytMatches text = false := by simpa using hm
          simp [handleYoutubeLink, h0, hm']
      · simp [handleYoutubeLink, h0]

theorem takeWhile_idem (p : α → Bool) (l : List α) :
    (l.takeWhile p).takeWhile p = l.takeWhile p := by
  induction l with
  | nil => rfl
  | cons a l ih =>
    by_cases h : p a
    · simp [List.takeWhile_cons, h, ih]
    · simp [List.takeWhile_cons, h]

theorem truncAtAmp_idem (url : String) :
    truncAtAmp (truncAtAmp url) = truncAtAmp url :=
  congrArg String.mk (takeWhile_idem _ _)

theorem matchAt_sound {core cs g : List Char} (h : matchAt core cs = some g) :
    g ≠ [] ∧ ∃ p rest, p ∈ schemeCombos ∧ cs = p ++ core ++ g ++ rest ∧
      ∃ c g', g = c :: g' ∧ idChar c = true := by
  unfold matchAt at h
  obtain ⟨l1, p, l2, hsplit, hf, -⟩ := List.findSome?_eq_some_iff.mp h
  have hp : p ∈ schemeCombos := by rw [hsplit]; exact List.mem_append_right _ (List.mem_cons_self _ _)
  by_cases hpre : (p ++ core).isPrefixOf cs
  · rw [if_pos hpre] at hf
    by_cases hrun : ((cs.drop (p.length + core.length)).takeWhile idChar).isEmpty
    · rw [if_pos hrun] at hf; cases hf
    · rw [if_neg hrun] at hf
      injection hf with hf
      obtain ⟨t, ht⟩ := List.isPrefixOf_iff_prefix.mp hpre
      have hdrop : cs.drop (p.length + core.length) = t := by
        rw [← ht]
        exact List.drop_left' (by rw [List.length_append])
      rw [hdrop] at hf hrun
      have hgne : g ≠ [] := by
        intro hg
        rw [hg] at hf
        rw [hf] at hrun
        exact hrun rfl
      refine ⟨hgne, p, t.dropWhile idChar, hp, ?_, ?_⟩
      · have hteq : t = g ++ t.dropWhile idChar := by
          rw [← hf, List.takeWhile_append_dropWhile]
        rw [← ht]
        conv_lhs => rw [hteq]
        simp [List.append_assoc]
      · cases hg : g with
        | nil => exact absurd hg hgne
        | cons c g' =>
          refine ⟨c, g', rfl, ?_⟩
          have : c ∈ t.takeWhile idChar := by rw [hf, hg]; exact List.mem_cons_self _ _
          exact List.mem_takeWhile_imp this
  · rw [if_neg hpre] at hf; cases hf

theorem searchCapture_sound {core : List Char} : ∀ {cs g : List Char},
    searchCapture core cs = some g → g ≠ [] ∧ patternMatches core cs := by
  intro cs
  induction cs with
  | nil => intro g h; cases h
  | cons c0 cs ih =>
    intro g h
    rw [searchCapture] at h
    cases hm : matchAt core (c0 :: cs) with
    | some g0 =>
      rw [hm] at h
      have hg : g0 = g := by simpa using h
      subst hg
      obtain ⟨hne, p, rest, hp, heq, c, g', hgc, hc⟩ := matchAt_sound hm
      refine ⟨hne, [], p, c, g' ++ rest, hp, ?_, hc⟩
      rw [heq, hgc]
      simp [List.append_assoc]
    | none =>
      rw [hm] at h
      simp only [Option.none_orElse] at h
      obtain ⟨hne, pre, p, c, rest, hp, heq, hc⟩ := ih h
      refine ⟨hne, c0 :: pre, p, c, rest, hp, ?_, hc⟩
      rw [heq]
      simp

theorem searchCapture_complete {core cs : List Char}
    (h : patternMatches core cs) : (searchCapture core cs).isSome := by
  obtain ⟨pre, p, c, rest, hp, heq, hc⟩ := h
  subst heq
  induction pre with
  | nil =>
    simp only [List.nil_append]
    have hne : p ++ core ++ c :: rest ≠ [] := by simp
    obtain ⟨d, ds, hds⟩ := List.exists_cons_of_ne_nil hne
    rw [hds, searchCapture]
    have hms : (matchAt core (d :: ds)).isSome := by
      rw [← hds]
      unfold matchAt
      rw [List.findSome?_isSome_iff]
      refine ⟨p, hp, ?_⟩
      have hpre : (p ++ core).isPrefixOf (p ++ core ++ c :: rest) = true := by
        rw [List.isPrefixOf_iff_prefix]
        exact ⟨c :: rest, by simp [List.append_assoc]⟩
      rw [if_pos hpre]
      have hdrop : (p ++ core ++ c :: rest).drop (p.length + core.length)
          = c :: rest :=
        List.drop_left' (by rw [List.length_append])
      simp only [hdrop, List.takeWhile_cons, hc]
      simp
    cases hmm : matchAt core (d :: ds) with
    | some g0 => simp [hmm]
    | none => rw [hmm] at hms; cases hms
  | cons d pre' ih =>
    simp only [List.cons_append]
    rw [searchCapture]
    cases hmm : matchAt core (d :: (pre' ++ p ++ core ++ c :: rest)) with
    | some g0 => simp
    | none =>
      simp only [Option.none_orElse]
      simpa using ih

/-- **C8** (confirmed): `extract_video_id` first truncates its input at the
first `&`; it returns a non-empty id exactly when one of the three URL
patterns (youtu.be/, youtube.com/watch?v=, youtube.com/embed/) matches the
truncated string, and raises `ValueError` — with the truncated URL in the
message — exactly when none matches. -/
theorem extract_video_id_spec (url : String) :
    extract_video_id url = extract_video_id (truncAtAmp url) ∧
    (match extract_video_id url with
     | .ok v => v ≠ "" ∧
        (patternMatches coreBe (truncAtAmp url).data ∨
         patternMatches coreWatch (truncAtAmp url).data ∨
         patternMatches coreEmbed (truncAtAmp url).data)
     | .error e =>
        ¬ patternMatches coreBe (truncAtAmp url).data ∧
        ¬ patternMatches coreWatch (truncAtAmp url).data ∧
        ¬ patternMatches coreEmbed (truncAtAmp url).data ∧
        e = "Invalid YouTube URL: " ++ truncAtAmp url) := by
  constructor
  · simp only [extract_video_id, truncAtAmp_idem]
  · cases h1 : searchCapture coreBe (truncAtAmp url).data with
    | some g =>
      have e : extract_video_id url = .ok ⟨g⟩ := by
        simp [extract_video_id, h1]
      rw [e]
      obtain ⟨hne, hpm⟩ := searchCapture_sound h1
      exact ⟨fun hh => hne (congrArg String.data hh), Or.inl hpm⟩
    | none =>
      cases h2 : searchCapture coreWatch (truncAtAmp url).data with
      | some g =>
        have e : extract_video_id url = .ok ⟨g⟩ := by
          simp [extract_video_id, h1, h2]
        rw [e]
        obtain ⟨hne, hpm⟩ := searchCapture_sound h2
        exact ⟨fun hh => hne (congrArg String.data hh), Or.inr (Or.inl hpm)⟩
      | none =>
        cases h3 : searchCapture coreEmbed (truncAtAmp url).data with
        | some g =>
          have e : extract_video_id url = .ok ⟨g⟩ := by
            simp [extract_video_id, h1, h2, h3]
          rw [e]
          obtain ⟨hne, hpm⟩ := searchCapture_sound h3
          exact ⟨fun hh => hne (congrArg String.data hh),
            Or.inr (Or.inr hpm)⟩
        | none =>
          have e : extract_video_id url
              = .error ("Invalid YouTube URL: " ++ truncAtAmp url) := by
            simp [extract_video_id, h1, h2, h3]
          rw [e]
          refine ⟨?_, ?_, ?_, rfl⟩
          · intro hpm
            have := searchCapture_complete hpm
            rw [h1] at this; cases this
          · intro hpm
            have := searchCapture_complete hpm
            rw [h2] at this; cases this
          · intro hpm
            have := searchCapture_complete hpm
            rw [h3] at this; cases this

/-- **C9** (confirmed): `explain_code` sends at most the first 2000
characters of the stripped code (appending the truncation marker exactly
when the stripped code exceeds 2000 characters), and an `analysis_type`
outside explain/implement/review selects the same prompt as "explain". -/
theorem explain_code_prompt_spec (code analysis_type : String) :
    ((pyStrip code).length ≤ 2000 → cleanCode code = pyStrip code) ∧
    ((pyStrip code).length > 2000 →
      cleanCode code = ⟨(pyStrip code).data.take 2000⟩ ++ truncationMarker) ∧
    (cleanCode code).data.take 2000 = (pyStrip code).data.take 2000 ∧
    (analysis_type ∉ (["explain", "implement", "review"] : List String) →
      promptFor analysis_type code = promptFor "explain" code) := by
  refine ⟨?_, ?_, ?_, ?_⟩
  · intro h
    have hn : ¬ ((pyStrip code).length > 2000) := by omega
    simp [cleanCode, hn]
  · intro h
    simp [cleanCode, h]
  · by_cases h : (pyStrip code).length > 2000
    · have hlen : ((pyStrip code).data.take 2000).length = 2000 := by
        rw [List.length_take]
        have : (pyStrip code).data.length = (pyStrip code).length := rfl
        omega
      simp only [cleanCode, if_pos h, String.data_append]
      rw [List.take_append_eq_append_take, hlen]
      simp [List.take_take]
    · have hn : ¬ ((pyStrip code).length > 2000) := h
      simp [cleanCode, hn]
  · intro hn
    have h1 : analysis_type ≠ "explain" := fun h => hn (by simp [h])
    have h2 : analysis_type ≠ "implement" := fun h => hn (by simp [h])
    have h3 : analysis_type ≠ "review" := fun h => hn (by simp [h])
    simp [promptFor, h1, h2, h3]

end LearnMate
